import Mathlib

/-!
# luv.c : event dispatch and handle-lifetime bridge

A shallow embedding of `src/luv.c`.  The Lua C API used by the file is
embedded as operations on an explicit interpreter state (value stack,
tables, userdata blocks, registry); the libuv engine is a record of
outcomes.  The utility functions, the four dispatchers, the wrappers that
can fail and the constructor of `luv.c` are transcribed statement by
statement; calls that only touch the engine (`uv_tcp_init`, `uv_ip4_addr`)
leave the interpreter state alone and appear as comments.  `malloc`, `free`,
`luaL_unref` and every `lua_pcall` of a function are recorded in a trace, so
that "exactly once" and "before" can be stated.
-/

set_option linter.unusedVariables false

namespace Luv

/-! ## Data model -/

/-- Lua values that can sit in a stack slot or a table field. -/
inductive Value where
  | nil
  | num (n : Int)
  | str (s : String)
  | table (id : Nat)
  | func (id : Nat)
  | userdata (id : Nat)
  deriving DecidableEq

/-- Table keys: `lua_getfield`/`lua_setfield` use string keys, `lua_rawgeti`
and `luaL_ref` use integer keys. -/
inductive Key where
  | s (name : String)
  | i (n : Int)
  deriving DecidableEq

/-- The C struct `luv_ref_t` (the `L` field is the interpreter state itself);
`addr` is the address `malloc` returned for it. -/
structure luv_ref_t where
  addr : Nat
  r : Int
  deriving DecidableEq

/-- The libuv buffer `uv_buf_t`: `addr` is the pointer `base`, `base` the
chars stored there. -/
structure uv_buf_t where
  addr : Nat
  base : List Char
  len : Nat

/-- The libuv error value `uv_err_t`. -/
structure uv_err_t where
  code : Int

/-- Collectable objects of the interpreter: tables, userdata blocks, closures. -/
structure Heap where
  /-- contents of each table -/
  fields : Nat → Key → Value
  /-- number of tables allocated so far -/
  ntables : Nat
  /-- table behind `LUA_REGISTRYINDEX` -/
  registry : Nat
  /-- table behind `LUA_GLOBALSINDEX` -/
  globals : Nat
  /-- length of the array part of the registry, as `lua_objlen` reports it -/
  reglen : Int
  /-- environment table of each userdata -/
  env : Nat → Nat
  /-- metatable of each userdata (`nil` when it has none) -/
  metatable : Nat → Value
  /-- the `data` member of the `uv_tcp_t` stored in each userdata block -/
  data : Nat → Option luv_ref_t
  /-- number of userdata blocks allocated so far -/
  nudata : Nat
  /-- environment table of each closure -/
  fenv : Nat → Nat

/-- What the C side of the bridge did, in order. -/
inductive Event where
  | call (f : Nat) (args : List Value)
  | unref (r : Int)
  | malloc (p : Nat)
  | free (p : Nat)
  deriving DecidableEq

/-- The interpreter state `lua_State` together with the C heap bookkeeping.
The value stack is stored top first: the head of `stack` is index `-1`. -/
structure LuaState where
  stack : List Value
  heap : Heap
  trace : List Event
  nextAddr : Nat

/-- Behaviour of host (Lua) functions: called with its arguments on the
current heap, a function returns normally (`none`) or raises an error value,
and leaves a heap behind.  It runs in its own frame and cannot touch the
stack slots of its caller. -/
abbrev Host := Nat → List Value → Heap → Option Value × Heap

/-- Outcome of running C code against the interpreter: normal return, a host
error raised at some state, or a failed `assert`. -/
inductive Res (α : Type) where
  | ok (a : α) (s : LuaState)
  | raised (msg : String) (s : LuaState)
  | aborted (s : LuaState)

/-- State in which a run ended. -/
def Res.state {α : Type} : Res α → LuaState
  | .ok _ s => s
  | .raised _ s => s
  | .aborted s => s

/-- Value handed back to the caller, when the run returned normally. -/
def Res.value? {α : Type} : Res α → Option α
  | .ok a _ => some a
  | _ => none

/-- Message of the host error, when the run raised one. -/
def Res.error? {α : Type} : Res α → Option String
  | .raised m _ => some m
  | _ => none

/-- C code running against the interpreter. -/
def M (α : Type) : Type := LuaState → Res α

/-- Sequencing of C statements: a raised error or failed assertion ends the run. -/
def M.bind {α β : Type} (m : M α) (f : α → M β) : M β := fun s =>
  match m s with
  | .ok a s' => f a s'
  | .raised e s' => .raised e s'
  | .aborted s' => .aborted s'

instance : Monad M where
  pure a := fun s => .ok a s
  bind := M.bind

/-- The libuv engine as far as `luv.c` observes it. -/
structure Engine where
  UV_EOF : Int
  uv_strerror : uv_err_t → String
  uv_last_error : uv_err_t
  uv_tcp_bind : Nat → String → Int → Int
  uv_listen : Nat → Int → Int
  uv_accept : Nat → Nat → Int
  uv_write : Nat → String → Int

/-! ## The Lua C API -/

def LUA_REGISTRYINDEX : Int := -10000

def LUA_GLOBALSINDEX : Int := -10002

/-- Position, counted from the top, of the stack slot a (non-pseudo) index names. -/
def slot (top : Nat) (idx : Int) : Option Nat :=
  if 0 < idx ∧ idx ≤ top then some (top - idx.toNat)
  else if idx < 0 ∧ -idx ≤ top then some ((-idx).toNat - 1)
  else none

/-- Value an index refers to; an index outside the stack reads as `nil`. -/
def index2adr (s : LuaState) (idx : Int) : Value :=
  if idx = LUA_REGISTRYINDEX then .table s.heap.registry
  else if idx = LUA_GLOBALSINDEX then .table s.heap.globals
  else match slot s.stack.length idx with
    | some k => s.stack.getD k .nil
    | none => .nil

def typename : Value → String
  | .nil => "nil"
  | .num _ => "number"
  | .str _ => "string"
  | .table _ => "table"
  | .func _ => "function"
  | .userdata _ => "userdata"

/-- Modelled from the spec: the helper `error(L, fmt, ...)`, which `luv.c` calls
but does not define (its definition is not among the sources).  The spec has it
raise a host-level error that carries the formatted message and is fatal to the
current call: control does not come back to the caller. -/
def error {α : Type} (msg : String) : M α := fun s => .raised msg s

/-- C `assert`. -/
def assert (c : Bool) : M Unit := fun s => if c then .ok () s else .aborted s

/-- Record an action of the C side. -/
def log (e : Event) : M Unit := fun s => .ok () { s with trace := s.trace ++ [e] }

def push (v : Value) : M Unit := fun s => .ok () { s with stack := v :: s.stack }

def lua_gettop : M Int := fun s => .ok s.stack.length s

def lua_settop (idx : Int) : M Unit := fun s =>
  if 0 ≤ idx then
    .ok () { s with stack :=
      List.replicate (idx.toNat - s.stack.length) Value.nil ++ s.stack.drop (s.stack.length - idx.toNat) }
  else
    .ok () { s with stack := s.stack.drop (-idx - 1).toNat }

/-- The macro `lua_pop(L, n)` is `lua_settop(L, -(n)-1)`. -/
def lua_pop (n : Int) : M Unit := lua_settop (-n - 1)

def lua_pushvalue (idx : Int) : M Unit := fun s => push (index2adr s idx) s

def lua_pushinteger (n : Int) : M Unit := push (.num n)

/-- The call `lua_pushlstring(L, p, n)` pushes a copy of the first `n` chars at `p`. -/
def lua_pushlstring (p : List Char) (n : Int) : M Unit := push (.str (String.mk (p.take n.toNat)))

def lua_remove (idx : Int) : M Unit := fun s =>
  match slot s.stack.length idx with
  | some k => .ok () { s with stack := s.stack.eraseIdx k }
  | none => .ok () s

/-- The call `lua_insert(L, idx)` moves the top element into position `idx`. -/
def lua_insert (idx : Int) : M Unit := fun s =>
  match slot s.stack.length idx, s.stack with
  | some k, t :: rest => .ok () { s with stack := rest.take k ++ t :: rest.drop k }
  | _, _ => .ok () s

def lua_isfunction (idx : Int) : M Bool := fun s =>
  match index2adr s idx with
  | .func _ => .ok true s
  | _ => .ok false s

def lua_getfenv (idx : Int) : M Unit := fun s =>
  match index2adr s idx with
  | .func f => push (.table (s.heap.fenv f)) s
  | .userdata u => push (.table (s.heap.env u)) s
  | _ => push .nil s

/-- The call `lua_setfenv(L, idx)` pops a table and makes it the environment of the
value at `idx`. -/
def lua_setfenv (idx : Int) : M Unit := fun s =>
  match index2adr s idx, s.stack with
  | .userdata u, .table t :: rest =>
      .ok () { s with stack := rest, heap := { s.heap with env := Function.update s.heap.env u t } }
  | .func f, .table t :: rest =>
      .ok () { s with stack := rest, heap := { s.heap with fenv := Function.update s.heap.fenv f t } }
  | _, _ => .ok () { s with stack := s.stack.drop 1 }

/-- Tables made by this file carry no metatable, so field access is raw;
indexing a value that is not a table raises. -/
def lua_getfield (idx : Int) (name : String) : M Unit := fun s =>
  match index2adr s idx with
  | .table t => push (s.heap.fields t (.s name)) s
  | v => .raised ("attempt to index a " ++ typename v ++ " value") s

def lua_setfield (idx : Int) (name : String) : M Unit := fun s =>
  match index2adr s idx with
  | .table t =>
      .ok () { s with
        stack := s.stack.drop 1,
        heap := { s.heap with
          fields := Function.update s.heap.fields t
            (Function.update (s.heap.fields t) (.s name) (s.stack.headD .nil)) } }
  | v => .raised ("attempt to index a " ++ typename v ++ " value") s

def lua_rawgeti (idx : Int) (n : Int) : M Unit := fun s =>
  match index2adr s idx with
  | .table t => push (s.heap.fields t (.i n)) s
  | _ => push .nil s

def lua_tostring (idx : Int) : M (Option String) := fun s =>
  match index2adr s idx with
  | .str x => .ok (some x) s
  | .num n => .ok (some (toString n)) s
  | _ => .ok none s

/-- How `%s` prints the result of `lua_tostring`. -/
def fmtS : Option String → String
  | some x => x
  | none => "(null)"

/-- The call `lua_pcall(L, nargs, 0, 0)`: the function sits below its `nargs`
arguments; function and arguments are removed, and on failure the error value
is pushed and a non-zero status returned. -/
def lua_pcall (host : Host) (nargs : Int) : M Int := fun s =>
  let args := (s.stack.take nargs.toNat).reverse
  let rest := s.stack.drop (nargs.toNat + 1)
  match s.stack.getD nargs.toNat .nil with
  | .func f =>
      match host f args s.heap with
      | (none, h) =>
          .ok 0 { s with stack := rest, heap := h, trace := s.trace ++ [.call f args] }
      | (some e, h) =>
          .ok 2 { s with stack := e :: rest, heap := h, trace := s.trace ++ [.call f args] }
  | v => .ok 2 { s with stack := .str ("attempt to call a " ++ typename v ++ " value") :: rest }


def lua_newtable : M Unit := fun s =>
  .ok () { s with
    stack := .table s.heap.ntables :: s.stack,
    heap := { s.heap with
      fields := Function.update s.heap.fields s.heap.ntables (fun _ => .nil),
      ntables := s.heap.ntables + 1 } }

/-- A fresh userdata block starts with the environment of the running C
function, which is the globals table. -/
def lua_newuserdata : M Nat := fun s =>
  .ok s.heap.nudata { s with
    stack := .userdata s.heap.nudata :: s.stack,
    heap := { s.heap with
      env := Function.update s.heap.env s.heap.nudata s.heap.globals,
      metatable := Function.update s.heap.metatable s.heap.nudata .nil,
      data := Function.update s.heap.data s.heap.nudata none,
      nudata := s.heap.nudata + 1 } }

/-- The call `lua_setmetatable(L, idx)` pops a table or nil and makes it the
metatable of the value at `idx`. -/
def lua_setmetatable (idx : Int) : M Unit := fun s =>
  match index2adr s idx with
  | .userdata u =>
      .ok () { s with
        stack := s.stack.drop 1,
        heap := { s.heap with metatable := Function.update s.heap.metatable u (s.stack.headD .nil) } }
  | _ => .ok () { s with stack := s.stack.drop 1 }

/-- The macro `luaL_getmetatable(L, n)` is `lua_getfield(L, LUA_REGISTRYINDEX, n)`. -/
def luaL_getmetatable (tname : String) : M Unit := lua_getfield LUA_REGISTRYINDEX tname

/-- The lauxlib routine `luaL_ref` on the registry: pops the top value and
stores it under a free integer key (slot 0 heads the list of released keys);
`reglen` stands for `lua_objlen` of the registry. -/
def luaL_ref (t : Int) : M Int := fun s =>
  match index2adr s t with
  | .table tb =>
      match s.stack.headD .nil with
      | .nil => .ok (-1) { s with stack := s.stack.drop 1 }
      | v =>
          match s.heap.fields tb (.i 0) with
          | .num (.ofNat (n + 1)) =>
              let ref : Int := .ofNat (n + 1)
              let f1 := Function.update (s.heap.fields tb) (.i 0) (s.heap.fields tb (.i ref))
              .ok ref { s with
                stack := s.stack.drop 1,
                heap := { s.heap with
                  fields := Function.update s.heap.fields tb (Function.update f1 (.i ref) v) } }
          | .num (.negSucc n) =>
              let ref : Int := .negSucc n
              let f1 := Function.update (s.heap.fields tb) (.i 0) (s.heap.fields tb (.i ref))
              .ok ref { s with
                stack := s.stack.drop 1,
                heap := { s.heap with
                  fields := Function.update s.heap.fields tb (Function.update f1 (.i ref) v) } }
          | _ =>
              let ref : Int := s.heap.reglen + 1
              .ok ref { s with
                stack := s.stack.drop 1,
                heap := { s.heap with
                  fields := Function.update s.heap.fields tb
                    (Function.update (s.heap.fields tb) (.i ref) v),
                  reglen := ref } }
  | _ => .ok (-1) { s with stack := s.stack.drop 1 }

/-- Heap after the slot `ref` of table `tb` went back on the list of released
keys: `t[ref] = t[0]; t[0] = ref`. -/
def Heap.release (h : Heap) (tb : Nat) (ref : Int) : Heap :=
  { h with
    fields := Function.update h.fields tb
      (Function.update (Function.update (h.fields tb) (.i ref) (h.fields tb (.i 0))) (.i 0) (.num ref)) }

/-- The lauxlib routine `luaL_unref`: the slot of a non-negative `ref` is put
back on the list of released keys, so it no longer holds the object. -/
def luaL_unref (t : Int) (ref : Int) : M Unit := fun s =>
  let s1 : LuaState := { s with trace := s.trace ++ [.unref ref] }
  match index2adr s t with
  | .table tb => if 0 ≤ ref then .ok () { s1 with heap := s.heap.release tb ref } else .ok () s1
  | _ => .ok () s1

def luaL_typerror {α : Type} (narg : Int) (tname : String) : M α := fun s =>
  .raised ("bad argument #" ++ toString narg ++ " (" ++ tname ++ " expected, got "
    ++ typename (index2adr s narg) ++ ")") s

/-- The lauxlib routine `luaL_checkudata`: the value must be a userdata whose
metatable is the one registered under `tname`. -/
def luaL_checkudata (ud : Int) (tname : String) : M Nat := fun s =>
  match index2adr s ud with
  | .userdata u =>
      match s.heap.metatable u with
      | .table m =>
          if s.heap.fields s.heap.registry (.s tname) = .table m then .ok u s
          else luaL_typerror ud tname s
      | _ => luaL_typerror ud tname s
  | _ => luaL_typerror ud tname s

def LUA_TFUNCTION : Int := 6

/-- Type tag of a value, as `lua_type` reports it. -/
def lua_type : Value → Int
  | .nil => 0
  | .num _ => 3
  | .str _ => 4
  | .table _ => 5
  | .func _ => 6
  | .userdata _ => 7

/-- Name of a type tag, as `lua_typename` reports it. -/
def lua_typename (t : Int) : String :=
  if t = 0 then "nil" else if t = 1 then "boolean" else if t = 2 then "userdata"
  else if t = 3 then "number" else if t = 4 then "string" else if t = 5 then "table"
  else if t = 6 then "function" else if t = 7 then "userdata" else if t = 8 then "thread"
  else "no value"

/-- The lauxlib routine `luaL_checktype`. -/
def luaL_checktype (narg : Int) (t : Int) : M Unit := fun s =>
  if lua_type (index2adr s narg) ≠ t then luaL_typerror narg (lua_typename t) s
  else .ok () s

/-- The lauxlib routine `luaL_checklstring`: strings and numbers are accepted. -/
def luaL_checklstring (narg : Int) : M String := fun s =>
  match index2adr s narg with
  | .str x => .ok x s
  | .num n => .ok (toString n) s
  | _ => luaL_typerror narg "string" s

def luaL_checkstring (narg : Int) : M String := luaL_checklstring narg

/-- The lauxlib routine `luaL_checkint`: numbers and numeric strings are accepted. -/
def luaL_checkint (narg : Int) : M Int := fun s =>
  match index2adr s narg with
  | .num n => .ok n s
  | .str x =>
      match x.toInt? with
      | some n => .ok n s
      | none => luaL_typerror narg "number" s
  | _ => luaL_typerror narg "number" s

/-- C `malloc`: a fresh address. -/
def malloc : M Nat := fun s =>
  .ok s.nextAddr { s with trace := s.trace ++ [.malloc s.nextAddr], nextAddr := s.nextAddr + 1 }

/-- C `free`. -/
def free (p : Nat) : M Unit := log (.free p)

/-- The assignment `handle->data = ref` into the `uv_tcp_t` of a userdata block. -/
def set_data (handle : Nat) (ref : luv_ref_t) : M Unit := fun s =>
  .ok () { s with heap := { s.heap with data := Function.update s.heap.data handle (some ref) } }

/-! ## luv.c : utility functions -/

/-- Registers a callback, callback_index can't be negative. -/
def luv_register_event (userdata_index : Int) (name : String) (callback_index : Int) : M Unit := do
  let before ← lua_gettop
  lua_getfenv userdata_index
  lua_pushvalue callback_index
  lua_setfield (-2) name
  lua_pop 1
  assert ((← lua_gettop) == before)

/-- Emit an event of the current userdata consuming nargs.
Assumes userdata is right below args. -/
def luv_emit_event (host : Host) (name : String) (nargs : Int) : M Unit := do
  let before ← lua_gettop
  lua_getfenv (-nargs - 1)
  lua_getfield (-1) name
  lua_remove (-2)
  if (← lua_isfunction (-1)) == false then
    lua_pop (1 + nargs)
    assert ((← lua_gettop) == before - nargs)
  else
    lua_insert (-nargs - 1)
    if (← lua_pcall host nargs) != 0 then
      error ("error running function 'on_" ++ name ++ "': " ++ fmtS (← lua_tostring (-1)))
    assert ((← lua_gettop) == before - nargs)

/-! ## luv.c : event callback dispatchers

The engine hands a dispatcher the native handle; `ref` below is the record
`handle->data` (for a write request, `req->data`). -/

def luv_on_connection (host : Host) (ref : luv_ref_t) (status : Int) : M Unit := do
  let before ← lua_gettop
  lua_rawgeti LUA_REGISTRYINDEX ref.r
  lua_pushinteger status
  luv_emit_event host "connection" 1
  lua_pop 1
  assert ((← lua_gettop) == before)

def luv_on_close (host : Host) (ref : luv_ref_t) : M Unit := do
  let before ← lua_gettop
  lua_rawgeti LUA_REGISTRYINDEX ref.r
  luv_emit_event host "closed" 0
  lua_pop 1
  luaL_unref LUA_REGISTRYINDEX ref.r
  free ref.addr
  assert ((← lua_gettop) == before)

def luv_on_read (E : Engine) (host : Host) (ref : luv_ref_t) (nread : Int) (buf : uv_buf_t) :
    M Unit := do
  let before ← lua_gettop
  lua_rawgeti LUA_REGISTRYINDEX ref.r
  if 0 ≤ nread then
    lua_pushlstring buf.base nread
    lua_pushinteger nread
    luv_emit_event host "read" 2
  else
    let err := E.uv_last_error
    if err.code == E.UV_EOF then
      luv_emit_event host "end" 0
    else
      error ("read: " ++ E.uv_strerror err)
  lua_pop 1
  free buf.addr
  assert ((← lua_gettop) == before)

def luv_after_write (host : Host) (ref : luv_ref_t) (status : Int) : M Unit := do
  let before ← lua_gettop
  lua_rawgeti LUA_REGISTRYINDEX ref.r
  luaL_unref LUA_REGISTRYINDEX ref.r
  if (← lua_pcall host 0) != 0 then
    error ("error running function 'on_write': " ++ fmtS (← lua_tostring (-1)))
  free ref.addr
  assert ((← lua_gettop) == before)

/-! ## luv.c : wrapped uv functions -/

def luv_tcp_bind (E : Engine) : M Int := do
  let before ← lua_gettop
  let handle ← luaL_checkudata 1 "luv_tcp"
  let host ← luaL_checkstring 2
  let port ← luaL_checkint 3
  -- struct sockaddr_in address = uv_ip4_addr(host, port);
  if E.uv_tcp_bind handle host port != 0 then
    let err := E.uv_last_error
    error ("tcp_bind: " ++ E.uv_strerror err)
  assert ((← lua_gettop) == before)
  return 0

def luv_listen (E : Engine) : M Int := do
  let before ← lua_gettop
  let handle ← luaL_checkudata 1 "luv_tcp"
  luaL_checktype 2 LUA_TFUNCTION
  luv_register_event 1 "connection" 2
  if E.uv_listen handle 128 != 0 then
    let err := E.uv_last_error
    error ("listen: " ++ E.uv_strerror err)
  assert ((← lua_gettop) == before)
  return 0

def luv_accept (E : Engine) : M Int := do
  let before ← lua_gettop
  let server ← luaL_checkudata 1 "luv_tcp"
  let client ← luaL_checkudata 2 "luv_tcp"
  if E.uv_accept server client != 0 then
    let err := E.uv_last_error
    error ("accept: " ++ E.uv_strerror err)
  assert ((← lua_gettop) == before)
  return 0

def luv_write (E : Engine) : M Int := do
  let before ← lua_gettop
  let handle ← luaL_checkudata 1 "luv_tcp"
  let chunk ← luaL_checklstring 2
  luaL_checktype 3 LUA_TFUNCTION
  let ref ← malloc
  lua_pushvalue 3
  let r ← luaL_ref LUA_REGISTRYINDEX
  let req : luv_ref_t := { addr := ref, r := r }
  -- the value uv_write returns is dropped
  let rc := E.uv_write handle chunk
  assert ((← lua_gettop) == before)
  return 0

/-! ## luv.c : uv constructors and custom APIs -/

def luv_new_tcp : M Int := do
  let before ← lua_gettop
  let handle ← lua_newuserdata
  let ref ← malloc
  lua_pushvalue (-1)
  let r ← luaL_ref LUA_REGISTRYINDEX
  set_data handle { addr := ref, r := r }
  -- uv_tcp_init(uv_default_loop(), handle);
  luaL_getmetatable "luv_tcp"
  lua_setmetatable (-2)
  lua_newtable
  lua_setfenv (-2)
  assert ((← lua_gettop) == before + 1)
  return 1

def luv_set_handler : M Int := do
  let before ← lua_gettop
  let _ ← luaL_checkudata 1 "luv_tcp"
  let name ← luaL_checkstring 2
  luaL_checktype 3 LUA_TFUNCTION
  luv_register_event 1 name 3
  assert ((← lua_gettop) == before)
  return 0

/-! ## Vocabulary of the properties -/

/-- Error text that `%s` prints for an error value. -/
def errText : Value → String
  | .str x => x
  | .num n => toString n
  | _ => "(null)"

/-- Limit of the interpreter on the number of stack slots of a C function. -/
def LUAI_MAXCSTACK : Nat := 8000

/-- Environment table `lua_getfenv` finds for a value, if it has one. -/
def envOf (h : Heap) : Value → Option Nat
  | .userdata u => some (h.env u)
  | .func g => some (h.fenv g)
  | _ => none

/-- What the registry token `r` resolves to. -/
def resolve (h : Heap) (r : Int) : Value := h.fields h.registry (.i r)

/-- What is stored under event `name` in the event table of handle `u`. -/
def handlerOf (h : Heap) (u : Nat) (name : String) : Value := h.fields (h.env u) (.s name)

/-- Host functions the C side invoked, with their arguments, in order. -/
def called : List Event → List (Nat × List Value)
  | [] => []
  | .call f args :: tr => (f, args) :: called tr
  | _ :: tr => called tr

/-- Result of emitting `name` when the stack holds the arguments `pre` (top
first) above the value `w`, with `st` below. -/
def emitResult (host : Host) (name : String) (pre : List Value) (w : Value) (st : List Value)
    (s : LuaState) : Res Unit :=
  match envOf s.heap w with
  | none => .raised "attempt to index a nil value" { s with stack := .nil :: (pre ++ w :: st) }
  | some t =>
      match s.heap.fields t (.s name) with
      | .func f =>
          match host f pre.reverse s.heap with
          | (none, h) =>
              .ok () { s with stack := w :: st, heap := h,
                              trace := s.trace ++ [.call f pre.reverse] }
          | (some e, h) =>
              .raised ("error running function 'on_" ++ name ++ "': " ++ errText e)
                { s with stack := e :: w :: st, heap := h,
                         trace := s.trace ++ [.call f pre.reverse] }
      | _ => .ok () { s with stack := w :: st }

/-- Host calls that emitting `name` with `args` on handle `u` gives rise to:
one call of the stored callback when it is a function, none otherwise. -/
def delivered (h : Heap) (u : Nat) (name : String) (args : List Value) : List (Nat × List Value) :=
  match handlerOf h u name with
  | .func f => [(f, args)]
  | _ => []

/-- The entry points the engine calls back into, with their native arguments. -/
inductive Dispatch where
  | connection (status : Int)
  | read (nread : Int) (buf : uv_buf_t)
  | close
  | after_write (status : Int)

/-- Run one dispatcher entry point for the record `ref`. -/
def dispatch (E : Engine) (host : Host) (ref : luv_ref_t) : Dispatch → M Unit
  | .connection status => luv_on_connection host ref status
  | .read nread buf => luv_on_read E host ref nread buf
  | .close => luv_on_close host ref
  | .after_write status => luv_after_write host ref status

/-- The token `r` resolves to a handle object, and the callback stored under
`name` in its event table, if there is one, returns normally on `args`. -/
def handlerReturns (host : Host) (h : Heap) (r : Int) (name : String) (args : List Value) : Prop :=
  ∃ u, resolve h r = .userdata u ∧ ∀ f, handlerOf h u name = .func f → (host f args h).1 = none

/-- The dispatch meets no host error: it is not the non-EOF read error, the
record belongs to a registered handle (for a write completion, to a function)
and the host function it reaches returns normally. -/
def Completes (E : Engine) (host : Host) (ref : luv_ref_t) (s : LuaState) : Dispatch → Prop
  | .connection status => handlerReturns host s.heap ref.r "connection" [.num status]
  | .read nread buf =>
      (0 ≤ nread ∧ handlerReturns host s.heap ref.r "read"
          [.str (String.mk (buf.base.take nread.toNat)), .num nread])
      ∨ (nread < 0 ∧ E.uv_last_error.code = E.UV_EOF ∧ handlerReturns host s.heap ref.r "end" [])
  | .close => handlerReturns host s.heap ref.r "closed" []
  | .after_write _ =>
      ∃ f, resolve s.heap ref.r = .func f ∧
        (host f [] (if 0 ≤ ref.r then s.heap.release s.heap.registry ref.r else s.heap)).1 = none

/-! ## Concrete inputs -/

/-- A heap with one registered handle: registry token 1 resolves to userdata 0,
whose event table is table 2 and holds `handlers`; registry token 2 resolves to
the function 4 (a write-completion callback); `luv_tcp` names metatable 3. -/
def demoHeap (handlers : List (String × Nat)) : Heap where
  fields := fun t k =>
    if t = 0 then
      (if k = .i 1 then .userdata 0 else if k = .i 2 then .func 4
       else if k = .s "luv_tcp" then .table 3 else .nil)
    else if t = 2 then
      (match k with
       | .s name => (match handlers.lookup name with
                     | some f => .func f
                     | none => .nil)
       | .i _ => .nil)
    else .nil
  ntables := 4
  registry := 0
  globals := 1
  reglen := 2
  env := fun _ => 2
  metatable := fun _ => .table 3
  data := fun u => if u = 0 then some { addr := 100, r := 1 } else none
  nudata := 1
  fenv := fun _ => 1

/-- A state over `demoHeap` with the given stack. -/
def demoState (handlers : List (String × Nat)) (stack : List Value) : LuaState where
  stack := stack
  heap := demoHeap handlers
  trace := []
  nextAddr := 101

/-- The record `handle->data` of the handle in `demoHeap`. -/
def demoRef : luv_ref_t := { addr := 100, r := 1 }

/-- The record `req->data` of a pending write in `demoHeap`. -/
def demoWriteRef : luv_ref_t := { addr := 200, r := 2 }

/-- Host functions that all return normally and leave the heap alone. -/
def hostOk : Host := fun _ _ h => (none, h)

/-- Host functions that all raise the error value `"boom"`. -/
def hostRaise : Host := fun _ _ h => (some (.str "boom"), h)

/-- An engine whose last error is code 5, with end-of-stream being code `eof`,
and whose native calls report `rc`. -/
def demoEngine (eof : Int) (rc : Int) : Engine where
  UV_EOF := eof
  uv_strerror := fun e => "errno " ++ toString e.code
  uv_last_error := { code := 5 }
  uv_tcp_bind := fun _ _ _ => rc
  uv_listen := fun _ _ => rc
  uv_accept := fun _ _ => rc
  uv_write := fun _ _ => rc

/-- A read buffer holding `hello`. -/
def demoBuf : uv_buf_t := { addr := 300, base := ['h', 'e', 'l', 'l', 'o'], len := 5 }

/-- Every allocated handle has an allocated environment table of its own. -/
def HeapWF (h : Heap) : Prop :=
  (∀ a, a < h.nudata → h.env a < h.ntables)
  ∧ (∀ a b, a < h.nudata → b < h.nudata → h.env a = h.env b → a = b)

/-- A fresh interpreter: the registry is table 0, the globals are table 1, and
no userdata exists. -/
def freshState : LuaState where
  stack := []
  heap :=
    { fields := fun _ _ => .nil
      ntables := 2
      registry := 0
      globals := 1
      reglen := 0
      env := fun _ => 1
      metatable := fun _ => .nil
      data := fun _ => none
      nudata := 0
      fenv := fun _ => 1 }
  trace := []
  nextAddr := 0

/-- Two handles made by `luv_new_tcp` in a fresh interpreter, and a function
pushed after them: the stack holds handle 0 at index 1, handle 1 at index 2
and function 7 at index 3. -/
def twoHandles : LuaState :=
  { (luv_new_tcp (luv_new_tcp freshState).state).state with
    stack := .func 7 :: (luv_new_tcp (luv_new_tcp freshState).state).state.stack }

/-! ## Stack and index lemmas -/

@[simp] theorem M.bind_apply {α β : Type} (m : M α) (f : α → M β) (s : LuaState) :
    (m >>= f) s = match m s with
      | .ok a s' => f a s'
      | .raised e s' => .raised e s'
      | .aborted s' => .aborted s' := rfl

@[simp] theorem M.pure_apply {α : Type} (a : α) (s : LuaState) : (pure a : M α) s = .ok a s := rfl

theorem slot_neg (top k : Nat) (h : k < top) : slot top (-(k : Int) - 1) = some k := by
  unfold slot
  have h1 : ¬ (0 < (-(k : Int) - 1) ∧ (-(k : Int) - 1) ≤ top) := by omega
  have h2 : (-(k : Int) - 1) < 0 ∧ -(-(k : Int) - 1) ≤ top := by omega
  rw [if_neg h1, if_pos h2]
  congr 1
  omega


theorem getD_append_cons (pre post : List Value) (v : Value) :
    (pre ++ v :: post).getD pre.length .nil = v := by
  induction pre with
  | nil => rfl
  | cons a pre ih => simpa using ih

theorem take_append_len (pre post : List Value) : (pre ++ post).take pre.length = pre := by
  induction pre with
  | nil => simp
  | cons a pre ih => simp [ih]

theorem drop_append_len (pre post : List Value) : (pre ++ post).drop pre.length = post := by
  induction pre with
  | nil => simp
  | cons a pre ih => simp [ih]

theorem index2adr_neg (s : LuaState) (pre post : List Value) (v : Value)
    (hs : s.stack = pre ++ v :: post) (hl : pre.length < LUAI_MAXCSTACK) :
    index2adr s (-(pre.length : Int) - 1) = v := by
  unfold index2adr
  have h1 : ¬ (-(pre.length : Int) - 1 = LUA_REGISTRYINDEX) := by
    unfold LUA_REGISTRYINDEX; unfold LUAI_MAXCSTACK at hl; omega
  have h2 : ¬ (-(pre.length : Int) - 1 = LUA_GLOBALSINDEX) := by
    unfold LUA_GLOBALSINDEX; unfold LUAI_MAXCSTACK at hl; omega
  rw [if_neg h1, if_neg h2, slot_neg _ _ (by rw [hs]; simp)]
  simp only [hs]
  exact getD_append_cons pre post v

theorem index2adr_top (v : Value) (x : List Value) (h : Heap) (t : List Event) (na : Nat) :
    index2adr ⟨v :: x, h, t, na⟩ (-1) = v :=
  index2adr_neg ⟨v :: x, h, t, na⟩ [] x v rfl (by simp [LUAI_MAXCSTACK])

theorem index2adr_second (a v : Value) (x : List Value) (h : Heap) (t : List Event) (na : Nat) :
    index2adr ⟨a :: v :: x, h, t, na⟩ (-2) = v :=
  index2adr_neg ⟨a :: v :: x, h, t, na⟩ [a] x v rfl (by simp [LUAI_MAXCSTACK])

theorem lua_remove_second (a b : Value) (x : List Value) (h : Heap) (t : List Event) (na : Nat) :
    lua_remove (-2) ⟨a :: b :: x, h, t, na⟩ = .ok () ⟨a :: x, h, t, na⟩ := by
  have := slot_neg (a :: b :: x).length 1 (by simp)
  simp only [lua_remove]
  rw [show (-2 : Int) = -((1 : Nat) : Int) - 1 by norm_num, this]
  rfl

theorem lua_pop_nat (n : Nat) (k : Int) (hk : k = n) (s : LuaState) :
    lua_pop k s = .ok () { s with stack := s.stack.drop n } := by
  subst hk
  unfold lua_pop lua_settop
  have h1 : ¬ (0 ≤ -(n : Int) - 1) := by omega
  rw [if_neg h1]
  have h2 : (-(-(n : Int) - 1) - 1).toNat = n := by omega
  rw [h2]

theorem assert_true (c : Bool) (hc : c = true) (s : LuaState) : assert c s = .ok () s := by
  subst hc; rfl


theorem emit_spec (host : Host) (name : String) (pre st : List Value) (w : Value) (s : LuaState)
    (hs : s.stack = pre ++ w :: st) (hl : pre.length < LUAI_MAXCSTACK) :
    luv_emit_event host name pre.length s = emitResult host name pre w st s := by
  obtain ⟨stack, heap, trace, na⟩ := s
  simp only at hs
  subst hs
  have hu := index2adr_neg ⟨pre ++ w :: st, heap, trace, na⟩ pre st w rfl hl
  have hgetfenv : lua_getfenv (-(pre.length : Int) - 1) ⟨pre ++ w :: st, heap, trace, na⟩ =
      .ok () ⟨(match envOf heap w with
                | some t => Value.table t
                | none => Value.nil) :: (pre ++ w :: st), heap, trace, na⟩ := by
    simp only [lua_getfenv, hu]
    cases w <;> rfl
  simp only [luv_emit_event, M.bind_apply, lua_gettop, hgetfenv, emitResult]
  have hpop : ∀ v : Value, lua_pop (1 + (pre.length : Int))
      ⟨v :: (pre ++ w :: st), heap, trace, na⟩ = .ok () ⟨w :: st, heap, trace, na⟩ := by
    intro v
    rw [lua_pop_nat (pre.length + 1) _ (by push_cast; ring)]
    simp [drop_append_len]
  have hassert : ∀ (h : Heap) (t : List Event),
      assert (((w :: st : List Value).length : Int)
        == ((pre ++ w :: st : List Value).length : Int) - (pre.length : Int))
        ⟨w :: st, h, t, na⟩ = .ok () ⟨w :: st, h, t, na⟩ := by
    intro h t
    apply assert_true
    simp
  cases henv : envOf heap w with
  | none => simp [lua_getfield, index2adr_top, typename]
  | some t =>
    simp only [M.bind_apply, push, lua_getfield, index2adr_top, lua_remove_second, lua_isfunction]
    cases hv : heap.fields t (.s name) with
    | func f =>
      simp only [Bool.true_eq_false, beq_self_eq_true, ↓reduceIte, M.bind_apply, Bool.false_eq_true,
        beq_iff_eq]
      have hins : lua_insert (-(pre.length : Int) - 1)
          ⟨.func f :: (pre ++ w :: st), heap, trace, na⟩
          = .ok () ⟨pre ++ .func f :: w :: st, heap, trace, na⟩ := by
        simp only [lua_insert]
        rw [slot_neg _ _ (by simp; omega)]
        simp [take_append_len, drop_append_len]
      simp only [hins, lua_pcall, Int.toNat_ofNat, getD_append_cons, take_append_len]
      have hd : (pre ++ Value.func f :: w :: st).drop (pre.length + 1) = w :: st := by
        rw [show pre ++ Value.func f :: w :: st = (pre ++ [Value.func f]) ++ w :: st by simp]
        have := drop_append_len (pre ++ [Value.func f]) (w :: st)
        simp only [List.length_append, List.length_singleton] at this
        exact this
      rw [hd]
      rcases hh : host f pre.reverse heap with ⟨r, h'⟩
      cases r with
      | none =>
        simp only [bne_self_eq_false, Bool.false_eq_true, ↓reduceIte, M.bind_apply, M.pure_apply,
          lua_gettop]
        exact hassert _ _
      | some e =>
        have hne : ((2 : Int) != 0) = true := by decide
        simp only [hne, ↓reduceIte, M.bind_apply, lua_tostring, index2adr_top, error]
        cases e <;> rfl
    | nil => simp [hpop, lua_gettop, assert]
    | num n => simp [hpop, lua_gettop, assert]
    | str x => simp [hpop, lua_gettop, assert]
    | table t => simp [hpop, lua_gettop, assert]
    | userdata w => simp [hpop, lua_gettop, assert]

theorem index2adr_registry (s : LuaState) : index2adr s LUA_REGISTRYINDEX = .table s.heap.registry := by
  simp [index2adr]

theorem emit_spec0 (host : Host) (name : String) (st : List Value) (w : Value) (s : LuaState)
    (hs : s.stack = w :: st) :
    luv_emit_event host name 0 s = emitResult host name [] w st s := by
  have := emit_spec host name [] st w s hs (by simp [LUAI_MAXCSTACK])
  simpa using this

theorem emit_spec1 (host : Host) (name : String) (a : Value) (st : List Value) (w : Value)
    (s : LuaState) (hs : s.stack = a :: w :: st) :
    luv_emit_event host name 1 s = emitResult host name [a] w st s := by
  have := emit_spec host name [a] st w s hs (by simp [LUAI_MAXCSTACK])
  simpa using this

theorem emit_spec2 (host : Host) (name : String) (a b : Value) (st : List Value) (w : Value)
    (s : LuaState) (hs : s.stack = a :: b :: w :: st) :
    luv_emit_event host name 2 s = emitResult host name [a, b] w st s := by
  have := emit_spec host name [a, b] st w s hs (by simp [LUAI_MAXCSTACK])
  simpa using this

theorem lua_pop_one (v : Value) (x : List Value) (h : Heap) (t : List Event) (na : Nat) :
    lua_pop 1 ⟨v :: x, h, t, na⟩ = .ok () ⟨x, h, t, na⟩ := by
  rw [lua_pop_nat 1 1 (by norm_num)]
  rfl

theorem luv_on_connection_spec (host : Host) (ref : luv_ref_t) (status : Int) (s : LuaState) :
    luv_on_connection host ref status s =
      match emitResult host "connection" [.num status] (resolve s.heap ref.r) s.stack s with
      | .ok _ s1 => .ok () { s1 with stack := s.stack }
      | r => r := by
  obtain ⟨stack, heap, trace, na⟩ := s
  simp only [luv_on_connection, M.bind_apply, lua_gettop, lua_rawgeti, index2adr_registry, push,
    lua_pushinteger]
  rw [emit_spec1 host "connection" (.num status) stack (heap.fields heap.registry (.i ref.r)) _ rfl]
  simp only [emitResult, resolve]
  cases envOf heap (heap.fields heap.registry (.i ref.r)) with
  | none => rfl
  | some t =>
    simp only
    cases heap.fields t (.s "connection") with
    | func f =>
      simp only
      rcases host f [Value.num status].reverse heap with ⟨r, h'⟩
      cases r with
      | none => simp [lua_pop_one, assert, lua_gettop]
      | some e => rfl
    | nil => simp [lua_pop_one, assert, lua_gettop]
    | num n => simp [lua_pop_one, assert, lua_gettop]
    | str x => simp [lua_pop_one, assert, lua_gettop]
    | table t => simp [lua_pop_one, assert, lua_gettop]
    | userdata w => simp [lua_pop_one, assert, lua_gettop]


theorem luv_on_close_spec (host : Host) (ref : luv_ref_t) (s : LuaState) :
    luv_on_close host ref s =
      match emitResult host "closed" [] (resolve s.heap ref.r) s.stack s with
      | .ok _ s1 =>
          .ok () { s1 with
            stack := s.stack,
            heap := if 0 ≤ ref.r then s1.heap.release s1.heap.registry ref.r else s1.heap,
            trace := s1.trace ++ [.unref ref.r, .free ref.addr] }
      | r => r := by
  obtain ⟨stack, heap, trace, na⟩ := s
  simp only [luv_on_close, M.bind_apply, lua_gettop, lua_rawgeti, index2adr_registry, push]
  rw [emit_spec0 host "closed" stack (heap.fields heap.registry (.i ref.r)) _ rfl]
  simp only [emitResult, resolve]
  cases envOf heap (heap.fields heap.registry (.i ref.r)) with
  | none => rfl
  | some t =>
    simp only
    cases heap.fields t (.s "closed") with
    | func f =>
      simp only
      rcases host f ([] : List Value).reverse heap with ⟨r, h'⟩
      cases r with
      | none =>
        by_cases hr : 0 ≤ ref.r <;>
          simp [lua_pop_one, assert, lua_gettop, luaL_unref, index2adr_registry, free, log, hr]
      | some e => rfl
    | nil =>
      by_cases hr : 0 ≤ ref.r <;>
        simp [lua_pop_one, assert, lua_gettop, luaL_unref, index2adr_registry, free, log, hr]
    | num n =>
      by_cases hr : 0 ≤ ref.r <;>
        simp [lua_pop_one, assert, lua_gettop, luaL_unref, index2adr_registry, free, log, hr]
    | str x =>
      by_cases hr : 0 ≤ ref.r <;>
        simp [lua_pop_one, assert, lua_gettop, luaL_unref, index2adr_registry, free, log, hr]
    | table t =>
      by_cases hr : 0 ≤ ref.r <;>
        simp [lua_pop_one, assert, lua_gettop, luaL_unref, index2adr_registry, free, log, hr]
    | userdata w =>
      by_cases hr : 0 ≤ ref.r <;>
        simp [lua_pop_one, assert, lua_gettop, luaL_unref, index2adr_registry, free, log, hr]

theorem luv_on_read_spec (E : Engine) (host : Host) (ref : luv_ref_t) (nread : Int) (buf : uv_buf_t)
    (s : LuaState) :
    luv_on_read E host ref nread buf s =
      if 0 ≤ nread then
        match emitResult host "read"
            [.num nread, .str (String.mk (buf.base.take nread.toNat))]
            (resolve s.heap ref.r) s.stack s with
        | .ok _ s1 => .ok () { s1 with stack := s.stack, trace := s1.trace ++ [.free buf.addr] }
        | r => r
      else if E.uv_last_error.code = E.UV_EOF then
        match emitResult host "end" [] (resolve s.heap ref.r) s.stack s with
        | .ok _ s1 => .ok () { s1 with stack := s.stack, trace := s1.trace ++ [.free buf.addr] }
        | r => r
      else
        .raised ("read: " ++ E.uv_strerror E.uv_last_error)
          { s with stack := resolve s.heap ref.r :: s.stack } := by
  obtain ⟨stack, heap, trace, na⟩ := s
  simp only [luv_on_read, M.bind_apply, lua_gettop, lua_rawgeti, index2adr_registry, push]
  by_cases hn : 0 ≤ nread
  · simp only [hn, ↓reduceIte, M.bind_apply, lua_pushlstring, lua_pushinteger, push]
    rw [emit_spec2 host "read" (.num nread) (.str (String.mk (buf.base.take nread.toNat))) stack
      (heap.fields heap.registry (.i ref.r)) _ rfl]
    simp only [emitResult, resolve]
    cases envOf heap (heap.fields heap.registry (.i ref.r)) with
    | none => rfl
    | some t =>
      simp only
      cases heap.fields t (.s "read") with
      | func f =>
        simp only
        rcases host f [Value.num nread, Value.str (String.mk (buf.base.take nread.toNat))].reverse
          heap with ⟨r, h'⟩
        cases r with
        | none => simp [lua_pop_one, assert, lua_gettop, free, log]
        | some e => rfl
      | nil => simp [lua_pop_one, assert, lua_gettop, free, log]
      | num n => simp [lua_pop_one, assert, lua_gettop, free, log]
      | str x => simp [lua_pop_one, assert, lua_gettop, free, log]
      | table t => simp [lua_pop_one, assert, lua_gettop, free, log]
      | userdata w => simp [lua_pop_one, assert, lua_gettop, free, log]
  · simp only [hn, ↓reduceIte, M.bind_apply]
    by_cases he : E.uv_last_error.code = E.UV_EOF
    · simp only [he, beq_self_eq_true, ↓reduceIte, M.bind_apply]
      rw [emit_spec0 host "end" stack (heap.fields heap.registry (.i ref.r)) _ rfl]
      simp only [emitResult, resolve]
      cases envOf heap (heap.fields heap.registry (.i ref.r)) with
      | none => rfl
      | some t =>
        simp only
        cases heap.fields t (.s "end") with
        | func f =>
          simp only
          rcases host f ([] : List Value).reverse heap with ⟨r, h'⟩
          cases r with
          | none => simp [lua_pop_one, assert, lua_gettop, free, log]
          | some e => rfl
        | nil => simp [lua_pop_one, assert, lua_gettop, free, log]
        | num n => simp [lua_pop_one, assert, lua_gettop, free, log]
        | str x => simp [lua_pop_one, assert, lua_gettop, free, log]
        | table t => simp [lua_pop_one, assert, lua_gettop, free, log]
        | userdata w => simp [lua_pop_one, assert, lua_gettop, free, log]
    · have he' : (E.uv_last_error.code == E.UV_EOF) = false := by simpa using he
      simp [he, he', error, resolve]

theorem luv_after_write_spec (host : Host) (ref : luv_ref_t) (status : Int) (s : LuaState) :
    luv_after_write host ref status s =
      let h1 := if 0 ≤ ref.r then s.heap.release s.heap.registry ref.r else s.heap
      match resolve s.heap ref.r with
      | .func f =>
          match host f [] h1 with
          | (none, h) =>
              .ok () { s with heap := h,
                              trace := s.trace ++ [.unref ref.r, .call f [], .free ref.addr] }
          | (some e, h) =>
              .raised ("error running function 'on_write': " ++ errText e)
                { s with stack := e :: s.stack, heap := h,
                         trace := s.trace ++ [.unref ref.r, .call f []] }
      | v =>
          .raised ("error running function 'on_write': " ++ ("attempt to call a " ++ typename v ++ " value"))
            { s with stack := .str ("attempt to call a " ++ typename v ++ " value") :: s.stack,
                     heap := h1, trace := s.trace ++ [.unref ref.r] } := by
  obtain ⟨stack, heap, trace, na⟩ := s
  simp only [luv_after_write, M.bind_apply, lua_gettop, lua_rawgeti, index2adr_registry, push,
    luaL_unref, resolve]
  have hne : ((2 : Int) != 0) = true := by decide
  by_cases hr : 0 ≤ ref.r
  · simp only [hr, ↓reduceIte, lua_pcall]
    cases heap.fields heap.registry (.i ref.r) with
    | func f =>
      simp only [Int.toNat_zero, List.getD_cons_zero, List.take_zero, List.reverse_nil]
      rcases host f [] (heap.release heap.registry ref.r) with ⟨r, h'⟩
      cases r with
      | none => simp [assert, lua_gettop, free, log]
      | some e =>
        simp only [hne, ↓reduceIte, M.bind_apply, lua_tostring, index2adr_top, error]
        cases e <;> simp [fmtS, errText]
    | nil => simp [hne, lua_tostring, index2adr_top, error, fmtS]
    | num n => simp [hne, lua_tostring, index2adr_top, error, fmtS]
    | str x => simp [hne, lua_tostring, index2adr_top, error, fmtS]
    | table t => simp [hne, lua_tostring, index2adr_top, error, fmtS]
    | userdata w => simp [hne, lua_tostring, index2adr_top, error, fmtS]
  · simp only [hr, ↓reduceIte, lua_pcall]
    cases heap.fields heap.registry (.i ref.r) with
    | func f =>
      simp only [Int.toNat_zero, List.getD_cons_zero, List.take_zero, List.reverse_nil]
      rcases host f [] heap with ⟨r, h'⟩
      cases r with
      | none => simp [assert, lua_gettop, free, log]
      | some e =>
        simp only [hne, ↓reduceIte, M.bind_apply, lua_tostring, index2adr_top, error]
        cases e <;> simp [fmtS, errText]
    | nil => simp [hne, lua_tostring, index2adr_top, error, fmtS]
    | num n => simp [hne, lua_tostring, index2adr_top, error, fmtS]
    | str x => simp [hne, lua_tostring, index2adr_top, error, fmtS]
    | table t => simp [hne, lua_tostring, index2adr_top, error, fmtS]
    | userdata w => simp [hne, lua_tostring, index2adr_top, error, fmtS]

theorem emitResult_not_aborted (host : Host) (name : String) (pre : List Value) (w : Value)
    (st : List Value) (s s1 : LuaState) : emitResult host name pre w st s ≠ .aborted s1 := by
  unfold emitResult
  intro h
  split at h
  · cases h
  · split at h
    · split at h <;> cases h
    · cases h

theorem emitResult_returns (host : Host) (name : String) (pre : List Value) (u : Nat)
    (st : List Value) (s : LuaState)
    (h : ∀ f, handlerOf s.heap u name = .func f → (host f pre.reverse s.heap).1 = none) :
    ∃ s1, emitResult host name pre (.userdata u) st s = .ok () s1 := by
  unfold emitResult
  simp only [envOf]
  cases hv : s.heap.fields (s.heap.env u) (.s name) with
  | func f =>
    have h1 := h f hv
    rcases hh : host f pre.reverse s.heap with ⟨r, h'⟩
    rw [hh] at h1
    simp only at h1
    subst h1
    simp only [hh]
    exact ⟨_, rfl⟩
  | nil => exact ⟨_, rfl⟩
  | num n => exact ⟨_, rfl⟩
  | str x => exact ⟨_, rfl⟩
  | table t => exact ⟨_, rfl⟩
  | userdata w => exact ⟨_, rfl⟩

/-- C1 (amended): a dispatch that returns leaves the host stack exactly as it
found it (so `lua_gettop` reports the depth it reported before), no dispatcher
assertion ever fails, and a dispatch does return whenever it meets no host
error. -/
theorem C1_stack_balance (E : Engine) (host : Host) (ref : luv_ref_t) (d : Dispatch)
    (s : LuaState) :
    (∀ s', dispatch E host ref d s = .ok () s' →
        s'.stack = s.stack ∧ lua_gettop s' = .ok (s.stack.length) s')
    ∧ (∀ s', dispatch E host ref d s ≠ .aborted s')
    ∧ (Completes E host ref s d → ∃ s', dispatch E host ref d s = .ok () s') := by
  refine ⟨?_, ?_, ?_⟩
  · intro s' h
    suffices s'.stack = s.stack by
      refine ⟨this, ?_⟩
      simp [lua_gettop, this]
    cases d with
    | connection status =>
      simp only [dispatch, luv_on_connection_spec] at h
      split at h
      · cases h; rfl
      · rename_i r hr
        rw [h] at hr
        exact absurd rfl (hr () s')
    | read nread buf =>
      simp only [dispatch, luv_on_read_spec] at h
      split at h
      · split at h
        · cases h; rfl
        · rename_i r hr
          rw [h] at hr
          exact absurd rfl (hr () s')
      · split at h
        · split at h
          · cases h; rfl
          · rename_i r hr
            rw [h] at hr
            exact absurd rfl (hr () s')
        · cases h
    | close =>
      simp only [dispatch, luv_on_close_spec] at h
      split at h
      · cases h; rfl
      · rename_i r hr
        rw [h] at hr
        exact absurd rfl (hr () s')
    | after_write status =>
      simp only [dispatch, luv_after_write_spec] at h
      split at h
      · split at h
        · cases h; rfl
        · cases h
      · cases h
  · intro s' h
    cases d with
    | connection status =>
      simp only [dispatch, luv_on_connection_spec] at h
      split at h
      · cases h
      · exact emitResult_not_aborted _ _ _ _ _ _ _ h
    | read nread buf =>
      simp only [dispatch, luv_on_read_spec] at h
      split at h
      · split at h
        · cases h
        · exact emitResult_not_aborted _ _ _ _ _ _ _ h
      · split at h
        · split at h
          · cases h
          · exact emitResult_not_aborted _ _ _ _ _ _ _ h
        · cases h
    | close =>
      simp only [dispatch, luv_on_close_spec] at h
      split at h
      · cases h
      · exact emitResult_not_aborted _ _ _ _ _ _ _ h
    | after_write status =>
      simp only [dispatch, luv_after_write_spec] at h
      split at h
      · split at h <;> cases h
      · cases h
  · intro hc
    cases d with
    | connection status =>
      obtain ⟨u, hu, hf⟩ := hc
      obtain ⟨s1, h1⟩ := emitResult_returns host "connection" [.num status] u s.stack s hf
      simp only [dispatch, luv_on_connection_spec, hu, h1]
      exact ⟨_, rfl⟩
    | read nread buf =>
      rcases hc with ⟨hn, u, hu, hf⟩ | ⟨hn, he, u, hu, hf⟩
      · obtain ⟨s1, h1⟩ := emitResult_returns host "read"
          [.num nread, .str (String.mk (buf.base.take nread.toNat))] u s.stack s hf
        simp only [dispatch, luv_on_read_spec, hu, h1, hn, if_true]
        exact ⟨_, rfl⟩
      · obtain ⟨s1, h1⟩ := emitResult_returns host "end" [] u s.stack s hf
        have hn' : ¬ (0 ≤ nread) := by omega
        simp only [dispatch, luv_on_read_spec, hu, h1, hn', he, if_true, if_false]
        exact ⟨_, rfl⟩
    | close =>
      obtain ⟨u, hu, hf⟩ := hc
      obtain ⟨s1, h1⟩ := emitResult_returns host "closed" [] u s.stack s hf
      simp only [dispatch, luv_on_close_spec, hu, h1]
      exact ⟨_, rfl⟩
    | after_write status =>
      obtain ⟨f, hf, hr⟩ := hc
      simp only [dispatch, luv_after_write_spec, hf]
      rcases hh : host f [] (if 0 ≤ ref.r then s.heap.release s.heap.registry ref.r else s.heap)
        with ⟨r, h'⟩
      rw [hh] at hr
      simp only at hr
      subst hr
      exact ⟨_, rfl⟩

theorem index2adr_push_pos (s : LuaState) (v : Value) (ci : Int) (f : Nat) (hci : 0 < ci)
    (hf : index2adr s ci = .func f) :
    index2adr { s with stack := v :: s.stack } ci = .func f := by
  unfold index2adr at hf ⊢
  have h1 : ¬ (ci = LUA_REGISTRYINDEX) := by unfold LUA_REGISTRYINDEX; omega
  have h2 : ¬ (ci = LUA_GLOBALSINDEX) := by unfold LUA_GLOBALSINDEX; omega
  rw [if_neg h1, if_neg h2] at hf ⊢
  unfold slot at hf ⊢
  by_cases hle : ci ≤ (s.stack.length : Int)
  · have c1 : 0 < ci ∧ ci ≤ (s.stack.length : Int) := ⟨hci, hle⟩
    have c2 : 0 < ci ∧ ci ≤ ((v :: s.stack).length : Int) := by
      refine ⟨hci, ?_⟩
      simp only [List.length_cons]
      push_cast
      omega
    rw [if_pos c1] at hf
    simp only at hf ⊢
    rw [if_pos c2]
    simp only
    have : (v :: s.stack).length - ci.toNat = (s.stack.length - ci.toNat) + 1 := by
      simp only [List.length_cons]
      omega
    rw [this]
    simpa using hf
  · have c1 : ¬ (0 < ci ∧ ci ≤ (s.stack.length : Int)) := fun h => hle h.2
    have c3 : ¬ (ci < 0 ∧ -ci ≤ (s.stack.length : Int)) := by omega
    rw [if_neg c1, if_neg c3] at hf
    cases hf

theorem luv_register_event_spec (ui : Int) (name : String) (ci : Int) (u : Nat) (s : LuaState)
    (hu : index2adr s ui = .userdata u) :
    luv_register_event ui name ci s =
      .ok () { s with heap := { s.heap with
        fields := Function.update s.heap.fields (s.heap.env u)
          (Function.update (s.heap.fields (s.heap.env u)) (.s name)
            (index2adr { s with stack := .table (s.heap.env u) :: s.stack } ci)) } } := by
  obtain ⟨stack, heap, trace, na⟩ := s
  simp only [luv_register_event, M.bind_apply, lua_gettop, lua_getfenv, hu, push, lua_pushvalue,
    lua_setfield, index2adr_second, List.drop_succ_cons, List.drop_zero, List.headD_cons,
    lua_pop_one]
  simp [assert]

theorem called_append (tr1 tr2 : List Event) : called (tr1 ++ tr2) = called tr1 ++ called tr2 := by
  induction tr1 with
  | nil => rfl
  | cons e tr ih => cases e <;> simp [called, ih]

theorem emit_handler_trace (host : Host) (name : String) (args st : List Value) (u g : Nat)
    (s : LuaState) (hs : s.stack = args.reverse ++ .userdata u :: st)
    (hl : args.length < LUAI_MAXCSTACK) (hg : handlerOf s.heap u name = .func g) :
    (luv_emit_event host name args.length s).state.trace = s.trace ++ [.call g args] := by
  have h := emit_spec host name args.reverse st (.userdata u) s hs (by simpa using hl)
  rw [List.length_reverse] at h
  rw [h]
  unfold emitResult
  simp only [envOf]
  unfold handlerOf at hg
  rw [hg]
  simp only [List.reverse_reverse]
  rcases host g args s.heap with ⟨r, h'⟩
  cases r <;> rfl

/-- C3: after `f` and then `g` were registered under `N` on one handle, emitting
`N` on that handle invokes exactly one host function, `g`, with the emitted
arguments; `f` is not invoked. -/
theorem C3_last_registration_wins (host : Host) (N : String) (ui fi gi : Int) (u f g : Nat)
    (s : LuaState) (args st : List Value)
    (hu : index2adr s ui = .userdata u) (hf : index2adr s fi = .func f)
    (hg : index2adr s gi = .func g) (hfi : 0 < fi) (hgi : 0 < gi)
    (hargs : args.length < LUAI_MAXCSTACK) :
    ∃ s1 s2, luv_register_event ui N fi s = .ok () s1 ∧ luv_register_event ui N gi s1 = .ok () s2 ∧
      handlerOf s1.heap u N = .func f ∧ handlerOf s2.heap u N = .func g ∧
      (luv_emit_event host N args.length
          { s2 with stack := args.reverse ++ .userdata u :: st }).state.trace
        = s.trace ++ [.call g args] ∧
      called (luv_emit_event host N args.length
          { s2 with stack := args.reverse ++ .userdata u :: st }).state.trace
        = called s.trace ++ [(g, args)] := by
  have hf' := index2adr_push_pos s (.table (s.heap.env u)) fi f hfi hf
  have e1 := luv_register_event_spec ui N fi u s hu
  rw [hf'] at e1
  obtain ⟨stack, heap, trace, na⟩ := s
  let h1 : Heap := { heap with
    fields := Function.update heap.fields (heap.env u)
      (Function.update (heap.fields (heap.env u)) (.s N) (.func f)) }
  let h2 : Heap := { h1 with
    fields := Function.update h1.fields (h1.env u)
      (Function.update (h1.fields (h1.env u)) (.s N) (.func g)) }
  have hu1 : index2adr ⟨stack, h1, trace, na⟩ ui = .userdata u := hu
  have hg1 : index2adr ⟨stack, h1, trace, na⟩ gi = .func g := hg
  have hg' := index2adr_push_pos ⟨stack, h1, trace, na⟩ (.table (h1.env u)) gi g hgi hg1
  have e2 := luv_register_event_spec ui N gi u ⟨stack, h1, trace, na⟩ hu1
  rw [hg'] at e2
  have k1 : handlerOf h1 u N = .func f := by simp [handlerOf, h1]
  have k2 : handlerOf h2 u N = .func g := by simp [handlerOf, h2]
  have ht := emit_handler_trace host N args st u g
    ⟨args.reverse ++ .userdata u :: st, h2, trace, na⟩ rfl hargs k2
  refine ⟨⟨stack, h1, trace, na⟩, ⟨stack, h2, trace, na⟩, e1, e2, k1, k2, ht, ?_⟩
  rw [ht, called_append]
  rfl

/-- C4 (amended): when the event table of the handle holds no function under
`name`, emitting `name` returns normally without a result and changes nothing
but the stack: the `nargs` arguments (`args`, as they lie on the stack) are
discarded and the handle object is on top; no host function is invoked (the
trace is unchanged) and no error is raised. -/
theorem C4_silent_drop (host : Host) (name : String) (args st : List Value) (u : Nat)
    (s : LuaState) (hs : s.stack = args ++ .userdata u :: st)
    (hl : args.length < LUAI_MAXCSTACK) (hno : ∀ f, handlerOf s.heap u name ≠ .func f) :
    luv_emit_event host name args.length s = .ok () { s with stack := .userdata u :: st } := by
  rw [emit_spec host name args st (.userdata u) s hs hl]
  unfold emitResult
  simp only [envOf]
  unfold handlerOf at hno
  split
  · rename_i f hf
    exact absurd hf (hno f)
  · rfl

/-- C4, witness: two arguments emitted to `read` on a handle without handlers. -/
theorem C4_silent_drop_witness :
    luv_emit_event hostRaise "read" 2 (demoState [] [.num 3, .str "abc", .userdata 0, .num 7])
      = .ok () { demoState [] [.num 3, .str "abc", .userdata 0, .num 7] with
                 stack := [.userdata 0, .num 7] } :=
  C4_silent_drop hostRaise "read" [.num 3, .str "abc"] [.num 7] 0
    (demoState [] [.num 3, .str "abc", .userdata 0, .num 7]) rfl (by decide)
    (by
      intro f h
      have h0 : handlerOf (demoState [] [.num 3, .str "abc", .userdata 0, .num 7]).heap 0 "read"
          = .nil := by decide
      rw [h0] at h
      cases h)

/-- C4, counterexample: `luv_emit_event` hands its caller the same (empty)
result whether the event was dropped or a handler was invoked, so it does not
report "not invoked". -/
theorem C4_counterexample :
    called (luv_emit_event hostOk "closed" 0 (demoState [] [.userdata 0])).state.trace = []
    ∧ called (luv_emit_event hostOk "closed" 0 (demoState [("closed", 9)] [.userdata 0])).state.trace
        = [(9, [])]
    ∧ (luv_emit_event hostOk "closed" 0 (demoState [] [.userdata 0])).value?
        = (luv_emit_event hostOk "closed" 0 (demoState [("closed", 9)] [.userdata 0])).value? := by
  decide

theorem emitResult_called (host : Host) (name : String) (pre st : List Value) (u : Nat)
    (s : LuaState) :
    called (emitResult host name pre (.userdata u) st s).state.trace
      = called s.trace ++ delivered s.heap u name pre.reverse := by
  unfold emitResult delivered handlerOf
  simp only [envOf]
  cases s.heap.fields (s.heap.env u) (.s name) with
  | func f =>
    simp only
    rcases host f pre.reverse s.heap with ⟨r, h'⟩
    cases r <;> simp [Res.state, called_append, called]
  | nil => simp [Res.state]
  | num n => simp [Res.state]
  | str x => simp [Res.state]
  | table t => simp [Res.state]
  | userdata w => simp [Res.state]

theorem emitResult_outcome (host : Host) (name : String) (pre st : List Value) (u : Nat)
    (s : LuaState) :
    (∃ s1, emitResult host name pre (.userdata u) st s = .ok () s1 ∧ s1.stack = .userdata u :: st
        ∧ s1.trace = s.trace ++ (delivered s.heap u name pre.reverse).map (fun c => .call c.1 c.2))
    ∨ (∃ f e s1, handlerOf s.heap u name = .func f ∧ (host f pre.reverse s.heap).1 = some e
        ∧ emitResult host name pre (.userdata u) st s
            = .raised ("error running function 'on_" ++ name ++ "': " ++ errText e) s1
        ∧ s1.trace = s.trace ++ [.call f pre.reverse]) := by
  unfold emitResult delivered handlerOf
  simp only [envOf]
  cases s.heap.fields (s.heap.env u) (.s name) with
  | func f =>
    simp only
    rcases hh : host f pre.reverse s.heap with ⟨r, h'⟩
    cases r with
    | none => left; exact ⟨_, rfl, rfl, by simp⟩
    | some e => right; exact ⟨f, e, _, rfl, by rw [hh], rfl, rfl⟩
  | nil => left; exact ⟨_, rfl, rfl, by simp⟩
  | num n => left; exact ⟨_, rfl, rfl, by simp⟩
  | str x => left; exact ⟨_, rfl, rfl, by simp⟩
  | table t => left; exact ⟨_, rfl, rfl, by simp⟩
  | userdata w => left; exact ⟨_, rfl, rfl, by simp⟩

/-- C5 (amended): `luv_on_read` on a registered handle (i) for `nread >= 0`
delivers `read` with exactly two arguments, a copy of the first `nread` chars of
the buffer and then `nread`; (ii) for `nread < 0` with the engine error being
end-of-stream delivers `end` with no arguments; in (i) and (ii) the dispatch
returns normally unless the handler itself raises, and then the error raised is
the handler's, reported as `error running function`; (iii) for `nread < 0`
with any other engine error it raises `read: ` followed by the engine's
error text and does nothing else: no handler is called. -/
theorem C5_read_dispatch (E : Engine) (host : Host) (ref : luv_ref_t) (nread : Int)
    (buf : uv_buf_t) (s : LuaState) (u : Nat) (hreg : resolve s.heap ref.r = .userdata u) :
    (0 ≤ nread →
      called (luv_on_read E host ref nread buf s).state.trace
        = called s.trace ++ delivered s.heap u "read"
            [.str (String.mk (buf.base.take nread.toNat)), .num nread]
      ∧ ((∃ s', luv_on_read E host ref nread buf s = .ok () s')
        ∨ ∃ f e, handlerOf s.heap u "read" = .func f
            ∧ (host f [.str (String.mk (buf.base.take nread.toNat)), .num nread] s.heap).1 = some e
            ∧ (luv_on_read E host ref nread buf s).error?
                = some ("error running function 'on_read': " ++ errText e)))
    ∧ (nread < 0 → E.uv_last_error.code = E.UV_EOF →
      called (luv_on_read E host ref nread buf s).state.trace
        = called s.trace ++ delivered s.heap u "end" []
      ∧ ((∃ s', luv_on_read E host ref nread buf s = .ok () s')
        ∨ ∃ f e, handlerOf s.heap u "end" = .func f ∧ (host f [] s.heap).1 = some e
            ∧ (luv_on_read E host ref nread buf s).error?
                = some ("error running function 'on_end': " ++ errText e)))
    ∧ (nread < 0 → E.uv_last_error.code ≠ E.UV_EOF →
      (luv_on_read E host ref nread buf s).error?
          = some ("read: " ++ E.uv_strerror E.uv_last_error)
      ∧ (luv_on_read E host ref nread buf s).state.trace = s.trace) := by
  rw [luv_on_read_spec, hreg]
  refine ⟨?_, ?_, ?_⟩
  · intro hn
    simp only [hn, if_true]
    unfold emitResult delivered handlerOf
    simp only [envOf]
    cases hv : s.heap.fields (s.heap.env u) (.s "read") with
    | func f =>
      simp only [List.reverse_cons, List.reverse_nil, List.nil_append, List.singleton_append]
      rcases hh : host f [.str (String.mk (buf.base.take nread.toNat)), .num nread] s.heap
        with ⟨r, h'⟩
      cases r with
      | none => simp [Res.state, called_append, called]
      | some e =>
        simp [Res.state, called_append, called, Res.error?]
        exact ⟨e, by rw [hh], rfl⟩
    | nil => simp [Res.state, called_append, called]
    | num n => simp [Res.state, called_append, called]
    | str x => simp [Res.state, called_append, called]
    | table t => simp [Res.state, called_append, called]
    | userdata w => simp [Res.state, called_append, called]
  · intro hn he
    have hn' : ¬ (0 ≤ nread) := by omega
    simp only [hn', he, if_true, if_false]
    unfold emitResult delivered handlerOf
    simp only [envOf]
    cases hv : s.heap.fields (s.heap.env u) (.s "end") with
    | func f =>
      simp only [List.reverse_nil]
      rcases hh : host f [] s.heap with ⟨r, h'⟩
      cases r with
      | none => simp [Res.state, called_append, called]
      | some e =>
        simp [Res.state, called_append, called, Res.error?]
        exact ⟨e, by rw [hh], rfl⟩
    | nil => simp [Res.state, called_append, called]
    | num n => simp [Res.state, called_append, called]
    | str x => simp [Res.state, called_append, called]
    | table t => simp [Res.state, called_append, called]
    | userdata w => simp [Res.state, called_append, called]
  · intro hn he
    have hn' : ¬ (0 ≤ nread) := by omega
    simp only [hn', he, if_false]
    exact ⟨rfl, rfl⟩

theorem luaL_ref_registry (u : Nat) (st : List Value) (heap : Heap) (tr : List Event) (na : Nat) :
    ∃ r h', luaL_ref LUA_REGISTRYINDEX ⟨.userdata u :: st, heap, tr, na⟩ = .ok r ⟨st, h', tr, na⟩
      ∧ h'.env = heap.env ∧ h'.nudata = heap.nudata ∧ h'.ntables = heap.ntables
      ∧ h'.registry = heap.registry := by
  simp only [luaL_ref, index2adr_registry, List.headD_cons, List.drop_succ_cons, List.drop_zero]
  split
  · exact ⟨_, _, rfl, rfl, rfl, rfl, rfl⟩
  · exact ⟨_, _, rfl, rfl, rfl, rfl, rfl⟩
  · exact ⟨_, _, rfl, rfl, rfl, rfl, rfl⟩

theorem luv_new_tcp_heap (s : LuaState) :
    (luv_new_tcp s).state.stack = .userdata s.heap.nudata :: s.stack
    ∧ (luv_new_tcp s).state.heap.nudata = s.heap.nudata + 1
    ∧ (luv_new_tcp s).state.heap.ntables = s.heap.ntables + 1
    ∧ (luv_new_tcp s).state.heap.env = Function.update s.heap.env s.heap.nudata s.heap.ntables
    ∧ (luv_new_tcp s).value? = some 1 := by
  obtain ⟨stack, heap, trace, na⟩ := s
  simp only [luv_new_tcp, M.bind_apply, lua_gettop, lua_newuserdata, malloc, lua_pushvalue,
    index2adr_top, push]
  obtain ⟨r, h', hr, h1, h2, h3, h4⟩ := luaL_ref_registry heap.nudata (.userdata heap.nudata :: stack)
    { heap with
      env := Function.update heap.env heap.nudata heap.globals,
      metatable := Function.update heap.metatable heap.nudata .nil,
      data := Function.update heap.data heap.nudata none,
      nudata := heap.nudata + 1 } (trace ++ [.malloc na]) (na + 1)
  rw [hr]
  simp only [set_data, luaL_getmetatable, lua_getfield, index2adr_registry, push, lua_setmetatable,
    index2adr_second, List.drop_succ_cons, List.drop_zero, List.headD_cons, lua_newtable,
    lua_setfenv, M.pure_apply]
  simp [assert, Res.state, Res.value?, h1, h2, h3]

theorem freshState_HeapWF : HeapWF freshState.heap :=
  ⟨fun a h => absurd h (Nat.not_lt_zero a), fun a _ h _ _ => absurd h (Nat.not_lt_zero a)⟩

theorem luv_new_tcp_HeapWF (s : LuaState) (h : HeapWF s.heap) :
    HeapWF (luv_new_tcp s).state.heap := by
  obtain ⟨_, hn, ht, he, _⟩ := luv_new_tcp_heap s
  obtain ⟨hb, hi⟩ := h
  unfold HeapWF
  rw [hn, ht, he]
  constructor
  · intro a ha
    by_cases hau : a = s.heap.nudata
    · subst hau; simp
    · rw [Function.update_noteq hau]
      have := hb a (by omega)
      omega
  · intro a b ha hb' hab
    by_cases hau : a = s.heap.nudata
    · by_cases hbu : b = s.heap.nudata
      · rw [hau, hbu]
      · rw [hau, Function.update_same, Function.update_noteq hbu] at hab
        have := hb b (by omega)
        omega
    · by_cases hbu : b = s.heap.nudata
      · rw [hbu, Function.update_same, Function.update_noteq hau] at hab
        have := hb a (by omega)
        omega
      · rw [Function.update_noteq hau, Function.update_noteq hbu] at hab
        exact hi a b (by omega) (by omega) hab

theorem twoHandles_HeapWF : HeapWF twoHandles.heap :=
  luv_new_tcp_HeapWF _ (luv_new_tcp_HeapWF _ freshState_HeapWF)

/-- C10: for two distinct handles `A` and `B` with environment tables of their
own (as `luv_new_tcp` makes them), registering a callback under `N` on `A`
leaves the event table of `B` unchanged, and emitting any event on `B` calls
exactly the host functions it called before the registration. -/
theorem C10_event_table_isolation (host : Host) (s : LuaState) (A B : Nat) (ui ci : Int)
    (N : String) (hwf : HeapWF s.heap) (hA : A < s.heap.nudata) (hB : B < s.heap.nudata)
    (hAB : A ≠ B) (hui : index2adr s ui = .userdata A) :
    ∃ s', luv_register_event ui N ci s = .ok () s' ∧
      s'.heap.env = s.heap.env ∧
      s'.heap.fields (s'.heap.env B) = s.heap.fields (s.heap.env B) ∧
      ∀ (name : String) (args st : List Value), args.length < LUAI_MAXCSTACK →
        called (luv_emit_event host name args.length
            { s' with stack := args.reverse ++ .userdata B :: st }).state.trace
        = called (luv_emit_event host name args.length
            { s with stack := args.reverse ++ .userdata B :: st }).state.trace := by
  have hne : s.heap.env B ≠ s.heap.env A := fun h => hAB (hwf.2 B A hB hA h).symm
  refine ⟨_, luv_register_event_spec ui N ci A s hui, rfl, ?_, ?_⟩
  · simp only
    rw [Function.update_noteq hne]
  · intro name args st hl
    have hl' : args.reverse.length < LUAI_MAXCSTACK := by simpa using hl
    have e1 := emit_spec host name args.reverse st (.userdata B)
      { stack := args.reverse ++ .userdata B :: st,
        heap := { s.heap with
          fields := Function.update s.heap.fields (s.heap.env A)
            (Function.update (s.heap.fields (s.heap.env A)) (.s N)
              (index2adr { s with stack := .table (s.heap.env A) :: s.stack } ci)) },
        trace := s.trace, nextAddr := s.nextAddr } rfl hl'
    have e2 := emit_spec host name args.reverse st (.userdata B)
      { s with stack := args.reverse ++ .userdata B :: st } rfl hl'
    rw [List.length_reverse] at e1 e2
    rw [e1, e2, emitResult_called, emitResult_called]
    simp only [delivered, handlerOf]
    rw [Function.update_noteq hne]

/-- C10, witness: the two handles of `twoHandles`; function 7 is registered under
`read` on handle 0 and handle 1 is the bystander. -/
theorem C10_event_table_isolation_witness :
    ∃ s', luv_register_event 1 "read" 3 twoHandles = .ok () s' ∧
      s'.heap.env = twoHandles.heap.env ∧
      s'.heap.fields (s'.heap.env 1) = twoHandles.heap.fields (twoHandles.heap.env 1) ∧
      ∀ (name : String) (args st : List Value), args.length < LUAI_MAXCSTACK →
        called (luv_emit_event hostOk name args.length
            { s' with stack := args.reverse ++ .userdata 1 :: st }).state.trace
        = called (luv_emit_event hostOk name args.length
            { twoHandles with stack := args.reverse ++ .userdata 1 :: st }).state.trace :=
  C10_event_table_isolation hostOk twoHandles 0 1 1 3 "read" twoHandles_HeapWF
    (by decide) (by decide) (by decide) (by decide)

/-- C1, counterexample: the read dispatch with a non-EOF engine error, and a
connection dispatch whose handler raises, both end in a host error with the
stack deeper than they found it (the resolved handle is still on it). -/
theorem C1_counterexample :
    (dispatch (demoEngine 1 0) hostOk demoRef (.read (-1) demoBuf)
        (demoState [] [.num 7])).state.stack = [.userdata 0, .num 7]
    ∧ (dispatch (demoEngine 1 0) hostOk demoRef (.read (-1) demoBuf)
        (demoState [] [.num 7])).state.stack.length ≠ (demoState [] [.num 7]).stack.length
    ∧ (dispatch (demoEngine 1 0) hostRaise demoRef (.connection 0)
        (demoState [("connection", 9)] [.num 7])).state.stack.length
          ≠ (demoState [("connection", 9)] [.num 7]).stack.length := by
  decide

/-- C1, witness: a close dispatch on a registered handle whose `closed` handler
returns normally. -/
theorem C1_stack_balance_witness :
    Completes (demoEngine 1 0) hostOk demoRef (demoState [("closed", 9)] [.num 7]) .close
    ∧ ∃ s', dispatch (demoEngine 1 0) hostOk demoRef .close (demoState [("closed", 9)] [.num 7])
        = .ok () s' :=
  have hc : Completes (demoEngine 1 0) hostOk demoRef (demoState [("closed", 9)] [.num 7]) .close :=
    ⟨0, by decide, fun _ _ => rfl⟩
  ⟨hc, (C1_stack_balance (demoEngine 1 0) hostOk demoRef .close
    (demoState [("closed", 9)] [.num 7])).2.2 hc⟩

/-- C2, failing input: a close dispatch whose `closed` handler raises. The
handler is called, the host error is raised, and neither `luaL_unref` nor
`free` runs: the registry token still resolves to the handle. -/
theorem C2_close_teardown_skipped :
    (luv_on_close hostRaise demoRef (demoState [("closed", 9)] [])).error?
        = some "error running function 'on_closed': boom"
    ∧ (luv_on_close hostRaise demoRef (demoState [("closed", 9)] [])).state.trace = [.call 9 []]
    ∧ resolve (luv_on_close hostRaise demoRef (demoState [("closed", 9)] [])).state.heap demoRef.r
        = .userdata 0 := by
  decide

/-- Close dispatch on a registered handle whose `closed` handler, if any,
returns normally: the handler is called with no arguments on the heap in which
the token still resolves, and then the token is released and the record freed,
once each, in this order. -/
theorem luv_on_close_teardown (host : Host) (ref : luv_ref_t) (s : LuaState) (u : Nat)
    (hu : resolve s.heap ref.r = .userdata u)
    (hf : ∀ f, handlerOf s.heap u "closed" = .func f → (host f [] s.heap).1 = none) :
    ∃ s', luv_on_close host ref s = .ok () s' ∧ s'.stack = s.stack
      ∧ s'.trace = s.trace
          ++ (delivered s.heap u "closed" []).map (fun c => .call c.1 c.2)
          ++ [.unref ref.r, .free ref.addr] := by
  rw [luv_on_close_spec, hu]
  rcases emitResult_outcome host "closed" [] s.stack u s with ⟨s1, h1, h2, h3⟩ | ⟨f, e, s1, h1, h2, _⟩
  · rw [h1]
    exact ⟨_, rfl, rfl, by simp [h3]⟩
  · have := hf f h1
    rw [List.reverse_nil] at h2
    rw [this] at h2
    cases h2

/-- C3, witness: handle 0 at index 1, function 5 at index 2 and function 6 at
index 3; both are registered under `read`, then `read` is emitted with one
argument. -/
theorem C3_last_registration_wins_witness :
    ∃ s1 s2,
      luv_register_event 1 "read" 2 (demoState [] [.func 6, .func 5, .userdata 0]) = .ok () s1
      ∧ luv_register_event 1 "read" 3 s1 = .ok () s2
      ∧ handlerOf s1.heap 0 "read" = .func 5 ∧ handlerOf s2.heap 0 "read" = .func 6
      ∧ (luv_emit_event hostOk "read" ([Value.num 1].length : Nat)
          { s2 with stack := [Value.num 1].reverse ++ .userdata 0 :: [] }).state.trace
            = (demoState [] [.func 6, .func 5, .userdata 0]).trace ++ [.call 6 [.num 1]]
      ∧ called (luv_emit_event hostOk "read" ([Value.num 1].length : Nat)
          { s2 with stack := [Value.num 1].reverse ++ .userdata 0 :: [] }).state.trace
            = called (demoState [] [.func 6, .func 5, .userdata 0]).trace ++ [(6, [.num 1])] :=
  C3_last_registration_wins hostOk "read" 1 2 3 0 5 6 (demoState [] [.func 6, .func 5, .userdata 0])
    [.num 1] [] (by decide) (by decide) (by decide) (by decide) (by decide) (by decide)

/-- C5, counterexample: end-of-stream on a handle whose `end` handler raises.
The dispatch does raise a host error. -/
theorem C5_counterexample :
    (demoEngine 5 0).uv_last_error.code = (demoEngine 5 0).UV_EOF
    ∧ (luv_on_read (demoEngine 5 0) hostRaise demoRef (-1) demoBuf
        (demoState [("end", 9)] [])).error? = some "error running function 'on_end': boom" := by
  decide

/-- C5, witness: the three branches on the registered handle of `demoState`. -/
theorem C5_read_dispatch_witness :
    resolve (demoState [("read", 8), ("end", 9)] []).heap demoRef.r = .userdata 0
    ∧ called (luv_on_read (demoEngine 1 0) hostOk demoRef 3 demoBuf
          (demoState [("read", 8), ("end", 9)] [])).state.trace
        = called (demoState [("read", 8), ("end", 9)] []).trace
          ++ delivered (demoState [("read", 8), ("end", 9)] []).heap 0 "read"
              [.str (String.mk (demoBuf.base.take (3 : Int).toNat)), .num 3]
    ∧ (luv_on_read (demoEngine 1 0) hostOk demoRef (-1) demoBuf
          (demoState [("read", 8), ("end", 9)] [])).error?
        = some ("read: " ++ (demoEngine 1 0).uv_strerror (demoEngine 1 0).uv_last_error) :=
  ⟨by decide,
   ((C5_read_dispatch (demoEngine 1 0) hostOk demoRef 3 demoBuf
      (demoState [("read", 8), ("end", 9)] []) 0 (by decide)).1 (by decide)).1,
   ((C5_read_dispatch (demoEngine 1 0) hostOk demoRef (-1) demoBuf
      (demoState [("read", 8), ("end", 9)] []) 0 (by decide)).2.2 (by decide) (by decide)).1⟩

/-- C6, failing inputs: a read dispatch with a non-EOF engine error, and a
successful read whose `read` handler raises. Both end in a host error and the
buffer is never freed. -/
theorem C6_read_buffer_not_freed :
    (luv_on_read (demoEngine 1 0) hostOk demoRef (-1) demoBuf (demoState [] [])).error?
        = some "read: errno 5"
    ∧ (luv_on_read (demoEngine 1 0) hostOk demoRef (-1) demoBuf
        (demoState [] [])).state.trace.count (.free demoBuf.addr) = 0
    ∧ (luv_on_read (demoEngine 1 0) hostRaise demoRef 3 demoBuf
        (demoState [("read", 8)] [])).error? = some "error running function 'on_read': boom"
    ∧ (luv_on_read (demoEngine 1 0) hostRaise demoRef 3 demoBuf
        (demoState [("read", 8)] [])).state.trace.count (.free demoBuf.addr) = 0
    ∧ (luv_on_read (demoEngine 1 0) hostOk demoRef 3 demoBuf
        (demoState [("read", 8)] [])).state.trace.count (.free demoBuf.addr) = 1 := by
  decide

/-- C7, failing input: a write completion whose callback raises. The registry
reference is released once and the error is surfaced, but the write request
record is never freed; when the callback returns normally it is freed once. -/
theorem C7_write_record_not_freed :
    (luv_after_write hostRaise demoWriteRef 0 (demoState [] [])).error?
        = some "error running function 'on_write': boom"
    ∧ (luv_after_write hostRaise demoWriteRef 0 (demoState [] [])).state.trace
        = [.unref 2, .call 4 []]
    ∧ (luv_after_write hostRaise demoWriteRef 0
        (demoState [] [])).state.trace.count (.free demoWriteRef.addr) = 0
    ∧ (luv_after_write hostOk demoWriteRef 0
        (demoState [] [])).state.trace.count (.free demoWriteRef.addr) = 1 := by
  decide

/-- C8, counterexample: the completion callback of a failed write (status -1)
receives exactly what the callback of a successful write (status 0) receives,
namely no arguments. -/
theorem C8_counterexample :
    called (luv_after_write hostOk demoWriteRef (-1) (demoState [] [])).state.trace = [(4, [])]
    ∧ called (luv_after_write hostOk demoWriteRef 0 (demoState [] [])).state.trace = [(4, [])] := by
  decide

/-- C8 (amended): `luv_after_write` calls the completion callback exactly once
with no arguments whatever the status is; the status does not reach the
callback and has no influence on the dispatch. -/
theorem C8_status_not_passed (host : Host) (ref : luv_ref_t) (status : Int) (s : LuaState)
    (f : Nat) (hf : resolve s.heap ref.r = .func f) :
    called (luv_after_write host ref status s).state.trace = called s.trace ++ [(f, [])]
    ∧ ∀ status', luv_after_write host ref status' s = luv_after_write host ref status s := by
  constructor
  · rw [luv_after_write_spec, hf]
    simp only
    rcases host f [] (if 0 ≤ ref.r then s.heap.release s.heap.registry ref.r else s.heap)
      with ⟨r, h'⟩
    cases r <;> simp [Res.state, called_append, called]
  · intro status'
    rfl

/-- C8, witness: the pending write of `demoState` completing with status -1. -/
theorem C8_status_not_passed_witness :
    called (luv_after_write hostOk demoWriteRef (-1) (demoState [] [])).state.trace
        = called (demoState [] []).trace ++ [(4, [])]
    ∧ ∀ status', luv_after_write hostOk demoWriteRef status' (demoState [] [])
        = luv_after_write hostOk demoWriteRef (-1) (demoState [] []) :=
  C8_status_not_passed hostOk demoWriteRef (-1) (demoState [] []) 4 (by decide)

/-- C9, failing input: the engine reports failure (-1) for every native call.
On valid arguments `luv_tcp_bind`, `luv_listen` and `luv_accept` raise the
engine error, but `luv_write` raises nothing and returns 0 values. -/
theorem C9_write_failure_not_raised :
    (demoEngine 1 (-1)).uv_write 0 "hello" ≠ 0
    ∧ (luv_write (demoEngine 1 (-1))
        (demoState [] [.func 4, .str "hello", .userdata 0])).value? = some 0
    ∧ (luv_write (demoEngine 1 (-1))
        (demoState [] [.func 4, .str "hello", .userdata 0])).error? = none
    ∧ (luv_tcp_bind (demoEngine 1 (-1))
        (demoState [] [.num 80, .str "0.0.0.0", .userdata 0])).error? = some "tcp_bind: errno 5"
    ∧ (luv_listen (demoEngine 1 (-1))
        (demoState [] [.func 4, .userdata 0])).error? = some "listen: errno 5"
    ∧ (luv_accept (demoEngine 1 (-1))
        (demoState [] [.userdata 1, .userdata 0])).error? = some "accept: errno 5" := by
  decide

/-- The wrapper `luv_tcp_bind` on arguments that pass its checks: it raises the
engine error exactly when `uv_tcp_bind` reports failure, and otherwise returns
no values. -/
theorem luv_tcp_bind_spec (E : Engine) (s : LuaState) (u : Nat) (host : String) (port : Int)
    (h1 : luaL_checkudata 1 "luv_tcp" s = .ok u s) (h2 : luaL_checkstring 2 s = .ok host s)
    (h3 : luaL_checkint 3 s = .ok port s) :
    luv_tcp_bind E s =
      if E.uv_tcp_bind u host port ≠ 0 then .raised ("tcp_bind: " ++ E.uv_strerror E.uv_last_error) s
      else .ok 0 s := by
  obtain ⟨stack, heap, trace, na⟩ := s
  simp only [luv_tcp_bind, M.bind_apply, lua_gettop, h1, h2, h3]
  by_cases hrc : E.uv_tcp_bind u host port = 0
  · simp [hrc, assert, lua_gettop]
  · simp [hrc, error]

/-- The wrapper `luv_accept` on arguments that pass its checks. -/
theorem luv_accept_spec (E : Engine) (s : LuaState) (server client : Nat)
    (h1 : luaL_checkudata 1 "luv_tcp" s = .ok server s)
    (h2 : luaL_checkudata 2 "luv_tcp" s = .ok client s) :
    luv_accept E s =
      if E.uv_accept server client ≠ 0 then .raised ("accept: " ++ E.uv_strerror E.uv_last_error) s
      else .ok 0 s := by
  obtain ⟨stack, heap, trace, na⟩ := s
  simp only [luv_accept, M.bind_apply, lua_gettop, h1, h2]
  by_cases hrc : E.uv_accept server client = 0
  · simp [hrc, assert, lua_gettop]
  · simp [hrc, error]

/-- The wrapper `luv_listen` on arguments that pass its checks: the callback is
registered under `connection`, then the engine error is raised exactly when
`uv_listen` reports failure. -/
theorem luv_listen_spec (E : Engine) (s : LuaState) (u : Nat)
    (h1 : luaL_checkudata 1 "luv_tcp" s = .ok u s) (h2 : luaL_checktype 2 LUA_TFUNCTION s = .ok () s) :
    ∃ s', luv_register_event 1 "connection" 2 s = .ok () s' ∧
      luv_listen E s =
        if E.uv_listen u 128 ≠ 0 then .raised ("listen: " ++ E.uv_strerror E.uv_last_error) s'
        else .ok 0 s' := by
  have hu : index2adr s 1 = .userdata u := by
    unfold luaL_checkudata at h1
    split at h1
    · rename_i w hw
      split at h1
      · split at h1
        · cases h1; exact hw
        · cases h1
      · cases h1
    · cases h1
  have hreg := luv_register_event_spec 1 "connection" 2 u s hu
  refine ⟨_, hreg, ?_⟩
  obtain ⟨stack, heap, trace, na⟩ := s
  simp only [luv_listen, M.bind_apply, lua_gettop, h1, h2, hreg]
  by_cases hrc : E.uv_listen u 128 = 0
  · simp [hrc, assert, lua_gettop]
  · simp [hrc, error]

theorem luaL_ref_registry_func (f : Nat) (st : List Value) (heap : Heap) (tr : List Event)
    (na : Nat) :
    ∃ r h', luaL_ref LUA_REGISTRYINDEX ⟨.func f :: st, heap, tr, na⟩ = .ok r ⟨st, h', tr, na⟩ := by
  simp only [luaL_ref, index2adr_registry, List.headD_cons, List.drop_succ_cons, List.drop_zero]
  split
  · exact ⟨_, _, rfl⟩
  · exact ⟨_, _, rfl⟩
  · exact ⟨_, _, rfl⟩

/-- The wrapper `luv_write` on arguments that pass its checks returns no values
and raises nothing, whatever `uv_write` reports. -/
theorem luv_write_never_raises (E : Engine) (s : LuaState) (u : Nat) (chunk : String)
    (h1 : luaL_checkudata 1 "luv_tcp" s = .ok u s) (h2 : luaL_checklstring 2 s = .ok chunk s)
    (h3 : luaL_checktype 3 LUA_TFUNCTION s = .ok () s) :
    ∃ s', luv_write E s = .ok 0 s' := by
  have hf : ∃ f, index2adr s 3 = .func f := by
    unfold luaL_checktype at h3
    cases hv : index2adr s 3 with
    | func f => exact ⟨f, rfl⟩
    | nil => simp [hv, lua_type, LUA_TFUNCTION, luaL_typerror] at h3
    | num n => simp [hv, lua_type, LUA_TFUNCTION, luaL_typerror] at h3
    | str x => simp [hv, lua_type, LUA_TFUNCTION, luaL_typerror] at h3
    | table t => simp [hv, lua_type, LUA_TFUNCTION, luaL_typerror] at h3
    | userdata w => simp [hv, lua_type, LUA_TFUNCTION, luaL_typerror] at h3
  obtain ⟨f, hf⟩ := hf
  obtain ⟨stack, heap, trace, na⟩ := s
  have hf' : index2adr ⟨stack, heap, trace ++ [.malloc na], na + 1⟩ 3 = .func f := hf
  simp only [luv_write, M.bind_apply, lua_gettop, h1, h2, h3, malloc, lua_pushvalue, push, hf']
  obtain ⟨r, h', hr⟩ := luaL_ref_registry_func f stack heap (trace ++ [.malloc na]) (na + 1)
  rw [hr]
  simp [assert, lua_gettop]


/-- The wrapper `luv_set_handler` on arguments that pass its checks registers
the callback at index 3 under the name at index 2 and returns no values. -/
theorem luv_set_handler_spec (s : LuaState) (u : Nat) (name : String)
    (h1 : luaL_checkudata 1 "luv_tcp" s = .ok u s) (h2 : luaL_checkstring 2 s = .ok name s)
    (h3 : luaL_checktype 3 LUA_TFUNCTION s = .ok () s) :
    ∃ s', luv_register_event 1 name 3 s = .ok () s' ∧ luv_set_handler s = .ok 0 s' := by
  have hu : index2adr s 1 = .userdata u := by
    unfold luaL_checkudata at h1
    split at h1
    · rename_i w hw
      split at h1
      · split at h1
        · cases h1; exact hw
        · cases h1
      · cases h1
    · cases h1
  have hreg := luv_register_event_spec 1 name 3 u s hu
  refine ⟨_, hreg, ?_⟩
  obtain ⟨stack, heap, trace, na⟩ := s
  simp only [luv_set_handler, M.bind_apply, lua_gettop, h1, h2, h3, hreg]
  simp [assert, lua_gettop]

end Luv
